import Mathlib

/-!
Shallow embedding of the ouro-fi perpetual DEX contracts:
`src/contracts/PerpetualDEX.py`, `src/contracts/OuroDEX.py` and
`src/contracts/FundingRateManager.py`.

Conventions used throughout:
* `UInt64`-typed quantities of the source are modelled as `Nat`; the source
  never relies on 64-bit wraparound (an overflowing AVM operation aborts the
  transaction, it does not wrap), and the Python text computes with plain
  integers.
* `Int64`-typed quantities are modelled as `Int`.  Python's integer division
  `//` is floor division, modelled by `Int.fdiv`; on non-negative operands it
  coincides with `Nat` division `/`.
* Accounts are modelled as `Nat` identifiers, box / mapping storage as
  association lists, and the externally supplied data (oracle price, caller,
  timestamp, generated position id) as explicit arguments of each operation.
* Asset transfers (USDC payouts, fees, liquidation rewards) are performed by
  an external collaborator in the source (`itxn.AssetTransfer`); the model
  keeps only the computed amounts.
-/

namespace OuroFi

/-- Errors raised by the contract operations; each constructor corresponds to
one `assert` message of the source (`Invalid leverage`, `Amount cannot be
zero` / zero margin, `Position not found`, `Not position owner`,
`Position is healthy`, `Position is closed`). -/
inductive DexError where
  | invalidLeverage
  | invalidMargin
  | positionNotFound
  | notOwner
  | positionHealthy
  | positionClosed
deriving DecidableEq

/-- Drop the state component of an operation's result, keeping the returned
value. -/
def payoutOf {σ β : Type} (r : Except DexError (σ × β)) : Except DexError β :=
  r.map (fun x => x.2)

/-! ## FundingRateManager.py -/

/-- `calculate_funding_rate` (src/contracts/FundingRateManager.py, lines
104-133), as a function of the market's stored open-interest totals and its
configured base and maximum funding rates.  The source names the two
intermediate quotients `long_ratio` and `imbalance_ratio`. -/
def calculateFundingRate (long_oi short_oi : Nat) (base_rate max_rate : Int) : Int :=
  let total_oi := long_oi + short_oi
  if total_oi = 0 then 0
  else
    let long_share : Int := ((long_oi : Int) * 10000).fdiv (total_oi : Int)
    let imbalance : Int := (long_share - 5000).fdiv 50
    let funding_rate : Int := (base_rate * imbalance).fdiv 100
    if funding_rate > max_rate then max_rate
    else if funding_rate < - max_rate then - max_rate
    else funding_rate

/-! ## Association-list storage helpers

`positions_box` (keys `b"pos_" + itob(position_id)`) is modelled as an
association list keyed by the position id; the `Mapping[String, UInt64]`
open-interest totals and the per-symbol cumulative funding entries of
`funding_rates_box` are association lists keyed by the symbol.  `box_put`
overwrites any previous entry with the same key, `del` removes it. -/

/-- Look up a position id in box storage (first matching entry). -/
def findPos {α : Type} : List (Nat × α) → Nat → Option α
  | [], _ => none
  | e :: t, k => if e.1 = k then some e.2 else findPos t k

/-- Delete a position id from box storage. -/
def erasePos {α : Type} (l : List (Nat × α)) (k : Nat) : List (Nat × α) :=
  l.filter (fun e => e.1 != k)

/-- Look up a symbol in a symbol-keyed store. -/
def mfind : List (String × Int) → String → Option Int
  | [], _ => none
  | e :: t, k => if e.1 = k then some e.2 else mfind t k

/-- `Mapping.get(symbol, 0)`: read with default `0`. -/
def mgetD (l : List (String × Int)) (k : String) : Int :=
  (mfind l k).getD 0

/-- Store a value under a symbol, replacing any previous entry. -/
def mput (l : List (String × Int)) (k : String) (v : Int) : List (String × Int) :=
  (k, v) :: l.filter (fun e => e.1 != k)

/-! ## PerpetualDEX.py -/

/-- `PerpPosition` (src/contracts/PerpetualDEX.py, lines 8-19). -/
structure PerpPosition where
  trader : Nat
  symbol : String
  size : Nat
  entry_price : Nat
  margin : Nat
  leverage : Nat
  is_long : Bool
  timestamp : Nat
  funding_index : Int
  liquidation_price : Nat
deriving DecidableEq

/-- `_calculate_liquidation_price` (PerpetualDEX.py, lines 310-327).  The
first argument is the contract's `maintenance_margin_` ratio field (500 basis
points by default).  All quantities are `UInt64` in the source; `leverage` is
guaranteed positive by `open_position` (Python would raise on division by
zero, while `Nat` division by zero yields 0 - the case is unreachable). -/
def perpLiquidationPrice (maintenance_bps entry_price leverage : Nat)
    (is_long : Bool) : Nat :=
  if is_long then
    entry_price * (10000 - 10000 / leverage + maintenance_bps) / 10000
  else
    entry_price * (10000 + 10000 / leverage - maintenance_bps) / 10000

/-- `_calculate_pnl` (PerpetualDEX.py, lines 329-338): signed PnL with floor
division by the entry price. -/
def perpCalcPnl (p : PerpPosition) (current_price : Nat) : Int :=
  let price_diff : Int := (current_price : Int) - (p.entry_price : Int)
  if p.is_long then (price_diff * (p.size : Int)).fdiv (p.entry_price : Int)
  else ((- price_diff) * (p.size : Int)).fdiv (p.entry_price : Int)

/-- `_calculate_funding_fee` (PerpetualDEX.py, lines 340-349):
`(size * (current_index - entry_index)) // 10000`.  The source annotates the
result `UInt64` but computes it from the signed difference of the indexes. -/
def perpCalcFundingFee (p : PerpPosition) (current_index : Int) : Int :=
  let funding_diff : Int := current_index - p.funding_index
  ((p.size : Int) * funding_diff).fdiv 10000

/-- `_should_liquidate` (PerpetualDEX.py, lines 362-367); the identical rule
is `_check_liquidation` in OuroDEX.py, lines 341-346. -/
def perpShouldLiquidate (position : PerpPosition) (current_price : Nat) : Bool :=
  if position.is_long then decide (current_price ≤ position.liquidation_price)
  else decide (current_price ≥ position.liquidation_price)

/-- The global state of `PerpetualDEX` relevant to the specified core:
position box storage, the per-symbol open-interest totals, the cumulative
funding index per symbol (the `cumulative_funding` field of the
`funding_rates_box` entries), and the configuration.  The open-interest
totals are modelled as `Int` so that the non-negativity claim is expressible
rather than forced by the carrier type.  Source field names
`maintenance_margin_` / `liquidation_fee_` carry a `_ratio` suffix. -/
structure PerpState where
  positions : List (Nat × PerpPosition)
  total_long_positions : List (String × Int)
  total_short_positions : List (String × Int)
  cumulative_funding : List (String × Int)
  trading_fee : Nat
  max_leverage : Nat
  maintenance_bps : Nat
  liquidation_fee_bps : Nat
deriving DecidableEq

/-- `__init__` defaults (PerpetualDEX.py, lines 54-63). -/
def perpInitState : PerpState :=
  { positions := []
    total_long_positions := []
    total_short_positions := []
    cumulative_funding := []
    trading_fee := 50
    max_leverage := 100
    maintenance_bps := 500
    liquidation_fee_bps := 500 }

/-- `_get_current_funding_index` (PerpetualDEX.py, lines 351-360):
`max(0, cumulative_funding)` when a funding entry exists, else 0. -/
def perpCurrentFundingIndex (s : PerpState) (symbol : String) : Int :=
  match mfind s.cumulative_funding symbol with
  | some c => max 0 c
  | none => 0

/-- The payout computation of `close_position` (PerpetualDEX.py, lines
180-189): `final_amount = margin + pnl - funding_fee`, minus the closing
trading fee `abs(pnl) * trading_fee // 10000`, then floored at zero. -/
def perpClosePayout (margin : Nat) (pnl funding_fee : Int) (trading_fee : Nat) : Int :=
  let final_amount : Int := (margin : Int) + pnl - funding_fee
  let trading_fee_amount : Int := (|pnl| * (trading_fee : Int)).fdiv 10000
  let final_amount := final_amount - trading_fee_amount
  if final_amount < 0 then 0 else final_amount

/-- `open_position` (PerpetualDEX.py, lines 81-149).  The caller (`Txn.sender`),
the oracle price, the timestamp and the generated position id are supplied by
the environment and appear as arguments.  The only validation performed by
the source is `leverage > 0 and leverage <= max_leverage`; the margin amount
is taken from the payment transaction unchecked.  The trading fee
`margin * trading_fee // 10000` is transferred externally. -/
def perpOpenPosition (s : PerpState) (trader : Nat) (symbol : String) (pid : Nat)
    (margin_amount leverage : Nat) (is_long : Bool) (current_price timestamp : Nat) :
    Except DexError (PerpState × Nat) :=
  if leverage > 0 ∧ leverage ≤ s.max_leverage then
    let position_size := margin_amount * leverage
    let liquidation_price :=
      perpLiquidationPrice s.maintenance_bps current_price leverage is_long
    let position : PerpPosition :=
      { trader := trader
        symbol := symbol
        size := position_size
        entry_price := current_price
        margin := margin_amount
        leverage := leverage
        is_long := is_long
        timestamp := timestamp
        funding_index := perpCurrentFundingIndex s symbol
        liquidation_price := liquidation_price }
    let positions := (pid, position) :: erasePos s.positions pid
    let s' :=
      if is_long then
        { s with positions := positions
                 total_long_positions := mput s.total_long_positions symbol
                   (mgetD s.total_long_positions symbol + (position_size : Int)) }
      else
        { s with positions := positions
                 total_short_positions := mput s.total_short_positions symbol
                   (mgetD s.total_short_positions symbol + (position_size : Int)) }
    Except.ok (s', pid)
  else Except.error DexError.invalidLeverage

/-- `close_position` (PerpetualDEX.py, lines 151-208): look the position up,
check ownership, compute PnL / funding fee / payout, subtract the size from
the open-interest total of the position's side, delete the position, return
the payout. -/
def perpClosePosition (s : PerpState) (trader pid current_price : Nat) :
    Except DexError (PerpState × Int) :=
  match findPos s.positions pid with
  | none => Except.error DexError.positionNotFound
  | some position =>
    if position.trader = trader then
      let pnl := perpCalcPnl position current_price
      let funding_fee :=
        perpCalcFundingFee position (perpCurrentFundingIndex s position.symbol)
      let final_amount := perpClosePayout position.margin pnl funding_fee s.trading_fee
      let s' :=
        if position.is_long then
          { s with positions := erasePos s.positions pid
                   total_long_positions := mput s.total_long_positions position.symbol
                     (mgetD s.total_long_positions position.symbol - (position.size : Int)) }
        else
          { s with positions := erasePos s.positions pid
                   total_short_positions := mput s.total_short_positions position.symbol
                     (mgetD s.total_short_positions position.symbol - (position.size : Int)) }
      Except.ok (s', final_amount)
    else Except.error DexError.notOwner

/-- `liquidate_position` (PerpetualDEX.py, lines 210-253): look the position
up, require `_should_liquidate`, compute the liquidator reward
`margin * liquidation_fee // 10000` (transferred externally; the source
then returns `True`), subtract the size from the open-interest total,
delete the position. -/
def perpLiquidatePosition (s : PerpState) (pid current_price : Nat) :
    Except DexError (PerpState × Nat) :=
  match findPos s.positions pid with
  | none => Except.error DexError.positionNotFound
  | some position =>
    if perpShouldLiquidate position current_price then
      let liquidation_reward := position.margin * s.liquidation_fee_bps / 10000
      let s' :=
        if position.is_long then
          { s with positions := erasePos s.positions pid
                   total_long_positions := mput s.total_long_positions position.symbol
                     (mgetD s.total_long_positions position.symbol - (position.size : Int)) }
        else
          { s with positions := erasePos s.positions pid
                   total_short_positions := mput s.total_short_positions position.symbol
                     (mgetD s.total_short_positions position.symbol - (position.size : Int)) }
      Except.ok (s', liquidation_reward)
    else Except.error DexError.positionHealthy

/-- `get_position` (PerpetualDEX.py, lines 286-292): read-only lookup that
fails with `Position not found` for an unknown id. -/
def perpGetPosition (s : PerpState) (pid : Nat) : Except DexError PerpPosition :=
  match findPos s.positions pid with
  | none => Except.error DexError.positionNotFound
  | some p => Except.ok p

/-- One user-level operation on `PerpetualDEX`, with all environment-supplied
data (caller, id, oracle price, timestamp) as constructor arguments. -/
inductive PerpOp where
  | openPos (trader : Nat) (symbol : String) (pid : Nat)
      (margin_amount leverage : Nat) (is_long : Bool) (price ts : Nat)
  | closePos (trader pid price : Nat)
  | liqPos (pid price : Nat)

/-- Execute one operation; a failed operation leaves the state unchanged
(every `assert` of the source fires before any storage write). -/
def perpStep (s : PerpState) (op : PerpOp) : PerpState :=
  match op with
  | PerpOp.openPos trader symbol pid m lev il price ts =>
    match perpOpenPosition s trader symbol pid m lev il price ts with
    | Except.ok (s', _) => s'
    | Except.error _ => s
  | PerpOp.closePos trader pid price =>
    match perpClosePosition s trader pid price with
    | Except.ok (s', _) => s'
    | Except.error _ => s
  | PerpOp.liqPos pid price =>
    match perpLiquidatePosition s pid price with
    | Except.ok (s', _) => s'
    | Except.error _ => s

/-- Execute a sequence of operations. -/
def perpRun (s : PerpState) (ops : List PerpOp) : PerpState :=
  ops.foldl perpStep s

/-- Sum of the sizes of the stored positions with the given symbol on the
given side (`side = true` for longs). -/
def sumSide : List (Nat × PerpPosition) → String → Bool → Nat
  | [], _, _ => 0
  | e :: t, symbol, side =>
    (if e.2.symbol = symbol ∧ e.2.is_long = side then e.2.size else 0)
      + sumSide t symbol side

/-- Open-interest bookkeeping invariant: each per-symbol total dominates the
sum of the sizes of the stored positions on that side (storage overwrites by
a colliding position id can only shrink the right-hand side). -/
def OIInv (s : PerpState) : Prop :=
  ∀ sym : String,
    (sumSide s.positions sym true : Int) ≤ mgetD s.total_long_positions sym ∧
    (sumSide s.positions sym false : Int) ≤ mgetD s.total_short_positions sym

/-! ## OuroDEX.py -/

/-- The configuration struct `GlobalConfig` (OuroDEX.py, lines 29-37). -/
structure OuroConfig where
  leverage_limit : Nat
  liquidation_threshold : Nat
  leverage_dividend : Nat
  maintenance_margin : Nat
  asset_price : Nat
  futures_expiration : Nat
deriving DecidableEq

/-- The `Position` struct (OuroDEX.py, lines 15-26), plus the position's
direction.  The source struct has no `is_long` field although
`_calculate_pnl` and `_check_liquidation` both read `position.is_long`;
following the spec's data model (a position carries a signed direction,
spec section 3) the direction chosen at `open_position` is carried in the
record.  Every theorem below that touches this repair is robust to it: at
an unchanged price the PnL is zero for either direction. -/
structure OuroPosition where
  margin : Nat
  entry_price : Nat
  is_open : Bool
  holder : Nat
  leverage : Nat
  size : Nat
  symbol : String
  timestamp : Nat
  liquidation_price : Nat
  is_long : Bool
deriving DecidableEq

/-- State of `OuroDEX`: box-stored positions and the global config. -/
structure OuroState where
  positions : List (Nat × OuroPosition)
  config : OuroConfig
deriving DecidableEq

/-- `__init__` defaults (OuroDEX.py, lines 45-59). -/
def ouroInitState : OuroState :=
  { positions := []
    config :=
      { leverage_limit := 10
        liquidation_threshold := 80
        leverage_dividend := 1000
        maintenance_margin := 100000000
        asset_price := 400000000000
        futures_expiration := 0 } }

/-- `_calculate_liquidation_price` (OuroDEX.py, lines 315-326):
`entry_price * (100 -+ threshold / leverage) / 100` with the configured
`liquidation_threshold` (80 by default); all divisions are `UInt64` floor
divisions. -/
def ouroLiquidationPrice (threshold entry_price leverage : Nat)
    (is_long : Bool) : Nat :=
  if is_long then entry_price * (100 - threshold / leverage) / 100
  else entry_price * (100 + threshold / leverage) / 100

/-- `_calculate_pnl` (OuroDEX.py, lines 328-339); same formula as
`PerpetualDEX._calculate_pnl`. -/
def ouroCalcPnl (p : OuroPosition) (current_price : Nat) : Int :=
  let price_diff : Int := (current_price : Int) - (p.entry_price : Int)
  if p.is_long then (price_diff * (p.size : Int)).fdiv (p.entry_price : Int)
  else ((- price_diff) * (p.size : Int)).fdiv (p.entry_price : Int)

/-- `open_position` (OuroDEX.py, lines 90-151).  Validation order follows the
source: margin first (`Amount cannot be zero`), then `Leverage too high`,
then `Leverage must be positive`.  The stored margin is
`current_price / leverage_dividend` - not the deposited amount - and the
oracle price is the cached `config.asset_price`.  The position is stored
with `is_open = False` (the source's inverted polarity). -/
def ouroOpenPosition (s : OuroState) (trader : Nat) (symbol : String) (pid : Nat)
    (margin_amount leverage : Nat) (is_long : Bool) (timestamp : Nat) :
    Except DexError (OuroState × Nat) :=
  if margin_amount = 0 then Except.error DexError.invalidMargin
  else if s.config.leverage_limit < leverage then Except.error DexError.invalidLeverage
  else if leverage = 0 then Except.error DexError.invalidLeverage
  else
    let current_price := s.config.asset_price
    let calculated_margin := current_price / s.config.leverage_dividend
    let position_size := margin_amount * leverage
    let liquidation_price :=
      ouroLiquidationPrice s.config.liquidation_threshold current_price leverage is_long
    let position : OuroPosition :=
      { margin := calculated_margin
        entry_price := current_price
        is_open := false
        holder := trader
        leverage := leverage
        size := position_size
        symbol := symbol
        timestamp := timestamp
        liquidation_price := liquidation_price
        is_long := is_long }
    Except.ok ({ s with positions := (pid, position) :: erasePos s.positions pid }, pid)

/-- `close_position` (OuroDEX.py, lines 153-216): ownership check, the
inverted `assert not position.is_open`, payout `margin + pnl` floored at
zero (no funding fee and no closing trading fee in this variant), and the
position re-stored with `is_open = True`. -/
def ouroClosePosition (s : OuroState) (trader pid : Nat) :
    Except DexError (OuroState × Nat) :=
  match findPos s.positions pid with
  | none => Except.error DexError.positionNotFound
  | some position =>
    if position.holder ≠ trader then Except.error DexError.notOwner
    else if position.is_open then Except.error DexError.positionClosed
    else
      let current_price := s.config.asset_price
      let pnl := ouroCalcPnl position current_price
      let final_payout : Nat :=
        if 0 < pnl then position.margin + pnl.toNat
        else if pnl.natAbs < position.margin then position.margin - pnl.natAbs
        else 0
      let updated := { position with is_open := true }
      Except.ok ({ s with positions := (pid, updated) :: erasePos s.positions pid },
        final_payout)

/-! ## Concrete data used by the witness theorems -/

/-- Symbol constant. -/
def symETH : String := "ETH"

/-- Symbol constant. -/
def symBTC : String := "BTC"

/-- A stored position used by witnesses: long, entry price 1000, margin 100,
liquidation price 900. -/
def posW : PerpPosition :=
  { trader := 1
    symbol := symETH
    size := 1000000
    entry_price := 1000
    margin := 100
    leverage := 10
    is_long := true
    timestamp := 0
    funding_index := 0
    liquidation_price := 900 }

/-- A `PerpetualDEX` state holding `posW` under id 5, with consistent
open-interest totals. -/
def stateW : PerpState :=
  { positions := [(5, posW)]
    total_long_positions := [(symETH, 1000000)]
    total_short_positions := []
    cumulative_funding := []
    trading_fee := 50
    max_leverage := 100
    maintenance_bps := 500
    liquidation_fee_bps := 500 }

/-- `stateW` after closing or liquidating position 5. -/
def stateE : PerpState :=
  { positions := []
    total_long_positions := [(symETH, 0)]
    total_short_positions := []
    cumulative_funding := []
    trading_fee := 50
    max_leverage := 100
    maintenance_bps := 500
    liquidation_fee_bps := 500 }

/-- The position created by `perpOpenPosition perpInitState 2 symBTC 9 100 10
true 1000 0`. -/
def posC : PerpPosition :=
  { trader := 2
    symbol := symBTC
    size := 1000
    entry_price := 1000
    margin := 100
    leverage := 10
    is_long := true
    timestamp := 0
    funding_index := 0
    liquidation_price := 950 }

/-- The state produced by that open. -/
def stateC : PerpState :=
  { positions := [(9, posC)]
    total_long_positions := [(symBTC, 1000)]
    total_short_positions := []
    cumulative_funding := []
    trading_fee := 50
    max_leverage := 100
    maintenance_bps := 500
    liquidation_fee_bps := 500 }

/-- A position whose funding-index snapshot exceeds the current index, used
to witness a negative funding fee. -/
def posF : PerpPosition :=
  { trader := 0
    symbol := symETH
    size := 3
    entry_price := 1000
    margin := 10
    leverage := 1
    is_long := true
    timestamp := 0
    funding_index := 20000
    liquidation_price := 0 }


/-! ## Theorems -/

/-- Claim C2: for every pair of open-interest totals (including the fully
one-sided case), the funding rate returned by `calculate_funding_rate`
satisfies `|rate| <= max_rate` (for a non-negatively configured `max_rate`),
and when the total open interest is zero the rate is exactly 0. -/
theorem calculateFundingRate_bounded (long_oi short_oi : Nat)
    (base_rate max_rate : Int) (hmax : 0 ≤ max_rate) :
    |calculateFundingRate long_oi short_oi base_rate max_rate| ≤ max_rate ∧
    (long_oi + short_oi = 0 →
      calculateFundingRate long_oi short_oi base_rate max_rate = 0) := by
  constructor
  · unfold calculateFundingRate
    dsimp only
    split
    · simpa using hmax
    · split
      · rw [abs_of_nonneg hmax]
      · split
        · rw [abs_neg, abs_of_nonneg hmax]
        · rename_i h1 h2
          rw [abs_le]
          omega
  · intro h
    unfold calculateFundingRate
    simp [h]

/-- Witness for C2 at the spec's concrete scenario
`long_oi = 7000, short_oi = 3000, base_rate = 10, max_rate = 1000`. -/
theorem calculateFundingRate_bounded_witness :
    (0 : Int) ≤ 1000 ∧
    (|calculateFundingRate 7000 3000 10 1000| ≤ 1000 ∧
      (7000 + 3000 = 0 → calculateFundingRate 7000 3000 10 1000 = 0)) :=
  ⟨by decide, calculateFundingRate_bounded 7000 3000 10 1000 (by decide)⟩

/-- Claim C1, counterexample: PerpetualDEX's `_calculate_liquidation_price`
violates the claim.  With the contract's configured maintenance ratio (500)
and maximum leverage (100), leverage 100 is valid (`1 <= 100 <= max`) and
`threshold / leverage = 5 < 10000 = BASIS`, yet the computed long
liquidation price (416000000000) is strictly ABOVE the entry price
(400000000000) instead of strictly below. -/
theorem perpLiquidationPrice_cex :
    (1 ≤ 100 ∧ 100 ≤ perpInitState.max_leverage ∧
      perpInitState.maintenance_bps / 100 < 10000) ∧
    perpLiquidationPrice perpInitState.maintenance_bps 400000000000 100 true
      = 416000000000 ∧
    ¬ perpLiquidationPrice perpInitState.maintenance_bps 400000000000 100 true
      < 400000000000 := by decide

/-- Claim C1, amended: for the OuroDEX formula, for every entry price of at
least 100 (one whole unit at the formula's percent scale) and every leverage
and threshold whose integer quotient `threshold / leverage` lies in
`[1, 100)`, the long liquidation price is strictly below the entry price and
the short liquidation price strictly above it. -/
theorem ouroLiquidationPrice_loss_side (entry_price leverage threshold : Nat)
    (_hlev : 1 ≤ leverage) (hentry : 100 ≤ entry_price)
    (hk1 : 1 ≤ threshold / leverage) (hk2 : threshold / leverage < 100) :
    ouroLiquidationPrice threshold entry_price leverage true < entry_price ∧
    entry_price < ouroLiquidationPrice threshold entry_price leverage false := by
  unfold ouroLiquidationPrice
  set k := threshold / leverage with hk
  constructor
  · rw [if_pos rfl, Nat.div_lt_iff_lt_mul (by norm_num : (0:ℕ) < 100)]
    have h1 : entry_price * (100 - k) ≤ entry_price * 99 :=
      Nat.mul_le_mul (le_refl entry_price) (by omega)
    set A := entry_price * (100 - k)
    omega
  · rw [if_neg (by simp)]
    have h2 : entry_price + 1 ≤ entry_price * (100 + k) / 100 := by
      rw [Nat.le_div_iff_mul_le (by norm_num : (0:ℕ) < 100)]
      have h3 : entry_price * 100 + entry_price * 1 ≤ entry_price * (100 + k) := by
        rw [← Nat.mul_add]
        exact Nat.mul_le_mul (le_refl entry_price) (by omega)
      set B := entry_price * (100 + k)
      omega
    omega

/-- Witness for the amended C1 at OuroDEX's configured threshold (80), its
maximum leverage (10) and the default oracle price. -/
theorem ouroLiquidationPrice_loss_side_witness :
    1 ≤ 10 ∧ 100 ≤ 400000000000 ∧ 1 ≤ 80 / 10 ∧ 80 / 10 < 100 ∧
    (ouroLiquidationPrice 80 400000000000 10 true < 400000000000 ∧
      400000000000 < ouroLiquidationPrice 80 400000000000 10 false) :=
  ⟨by decide, by decide, by decide, by decide,
    ouroLiquidationPrice_loss_side 400000000000 10 80 (by decide) (by decide)
      (by decide) (by decide)⟩

/-- Claim C5: the liquidation predicate holds exactly when, for a long,
`current_price <= liquidation_price` and, for a short,
`current_price >= liquidation_price`; at `current_price = liquidation_price`
it holds for both directions (boundary inclusive). -/
theorem perpShouldLiquidate_spec (p : PerpPosition) (c : Nat) :
    (perpShouldLiquidate p c = true ↔
      (if p.is_long = true then c ≤ p.liquidation_price
       else p.liquidation_price ≤ c)) ∧
    perpShouldLiquidate p p.liquidation_price = true := by
  unfold perpShouldLiquidate
  cases hp : p.is_long <;> simp [hp]

/-- Claim C6, counterexample: `calculate_funding_rate` is not odd-symmetric
under swapping the open-interest sides.  With `base_rate = 10` and
`max_rate = 1000`: `rate(1, 2) = -4` but `rate(2, 1) = 3`, because the three
floor divisions round asymmetrically. -/
theorem calculateFundingRate_swap_cex :
    calculateFundingRate 1 2 10 1000 = -4 ∧
    calculateFundingRate 2 1 10 1000 = 3 ∧
    calculateFundingRate 1 2 10 1000 ≠ - calculateFundingRate 2 1 10 1000 := by
  decide

/-- Claim C8, counterexample: `PerpetualDEX.open_position` does NOT validate
the margin amount: an open with margin 0 (and valid leverage) succeeds
instead of failing with the invalid-margin error. -/
theorem perpOpenPosition_zero_margin_cex :
    (perpOpenPosition perpInitState 1 symETH 7 0 5 true 400000000000 0).toOption.isSome
      = true := by decide

/-- Claim C8, amended: `PerpetualDEX.open_position` fails with the
invalid-leverage error whenever leverage is zero or exceeds the configured
maximum; `OuroDEX.open_position` fails with the invalid-margin error whenever
the margin amount is zero and with the invalid-leverage error whenever the
margin is positive and leverage is zero or exceeds the limit; each failure
aborts before any storage write, so no state is produced.  (PerpetualDEX
itself never checks the margin - the counterexample.) -/
theorem openPosition_validation (s : PerpState) (os : OuroState) (trader : Nat)
    (symbol : String) (pid margin_amount leverage : Nat) (is_long : Bool)
    (price ts : Nat) :
    (leverage = 0 ∨ s.max_leverage < leverage →
      perpOpenPosition s trader symbol pid margin_amount leverage is_long price ts
        = Except.error DexError.invalidLeverage) ∧
    (margin_amount = 0 →
      ouroOpenPosition os trader symbol pid margin_amount leverage is_long ts
        = Except.error DexError.invalidMargin) ∧
    (0 < margin_amount → (leverage = 0 ∨ os.config.leverage_limit < leverage) →
      ouroOpenPosition os trader symbol pid margin_amount leverage is_long ts
        = Except.error DexError.invalidLeverage) := by
  refine ⟨?_, ?_, ?_⟩
  · intro h
    unfold perpOpenPosition
    rw [if_neg (by omega)]
  · intro h
    unfold ouroOpenPosition
    rw [if_pos h]
  · intro h1 h2
    unfold ouroOpenPosition
    rw [if_neg (by omega)]
    rcases h2 with h2 | h2
    · rw [if_neg (by omega), if_pos h2]
    · rw [if_pos h2]

/-- Witness for the amended C8: leverage 0 (PerpetualDEX), margin 0
(OuroDEX), and leverage 11 above OuroDEX's limit of 10. -/
theorem openPosition_validation_witness :
    perpOpenPosition perpInitState 1 symETH 7 5 0 true 100 0
      = Except.error DexError.invalidLeverage ∧
    ouroOpenPosition ouroInitState 1 symETH 7 0 5 true 0
      = Except.error DexError.invalidMargin ∧
    ouroOpenPosition ouroInitState 1 symETH 7 5 11 true 0
      = Except.error DexError.invalidLeverage :=
  ⟨(openPosition_validation perpInitState ouroInitState 1 symETH 7 5 0 true 100 0).1
      (Or.inl rfl),
   (openPosition_validation perpInitState ouroInitState 1 symETH 7 0 5 true 100 0).2.1
      rfl,
   (openPosition_validation perpInitState ouroInitState 1 symETH 7 5 11 true 100 0).2.2
      (by decide) (Or.inr (by decide))⟩

/-- Claim C9: the funding fee equals
`size * (current_index - index_at_entry) // 10000` in signed integer
arithmetic (`SCALE = 10000`), and it is strictly negative - the position
receives funding - whenever the current index is below the entry snapshot
and the position has positive size. -/
theorem perpCalcFundingFee_spec (p : PerpPosition) (current_index : Int) :
    perpCalcFundingFee p current_index
      = ((p.size : Int) * (current_index - p.funding_index)).fdiv 10000 ∧
    (current_index < p.funding_index → 0 < p.size →
      perpCalcFundingFee p current_index < 0) := by
  refine ⟨rfl, ?_⟩
  intro h hs
  unfold perpCalcFundingFee
  apply Int.fdiv_neg' ?_ (by norm_num)
  have h1 : (0:Int) < (p.size : Int) := by exact_mod_cast hs
  have h2 : current_index - p.funding_index < 0 := by omega
  exact mul_neg_of_pos_of_neg h1 h2

/-- Witness for C9: a position with entry snapshot 20000, current index 0,
size 3 - the fee is negative. -/
theorem perpCalcFundingFee_spec_witness :
    perpCalcFundingFee posF 0
      = ((posF.size : Int) * ((0:Int) - posF.funding_index)).fdiv 10000 ∧
    perpCalcFundingFee posF 0 < 0 :=
  ⟨(perpCalcFundingFee_spec posF 0).1,
   (perpCalcFundingFee_spec posF 0).2 (by decide) (by decide)⟩

/-- The payout arithmetic of `close_position`: it equals
`margin + pnl - funding_fee - closing_fee` floored at zero, hence is
non-negative. -/
theorem perpClosePayout_spec (margin : Nat) (pnl ff : Int) (tf : Nat) :
    perpClosePayout margin pnl ff tf
      = max ((margin : Int) + pnl - ff - (|pnl| * (tf : Int)).fdiv 10000) 0 ∧
    0 ≤ perpClosePayout margin pnl ff tf := by
  unfold perpClosePayout
  dsimp only
  constructor
  · split
    · rename_i hlt
      rw [max_eq_right (le_of_lt hlt)]
    · rename_i hge
      rw [max_eq_left (by omega)]
  · split
    · exact le_refl 0
    · omega

/-- Claim C3: a successful `close_position` returns
`margin + pnl - funding_fee` reduced by the closing trading fee and clamped
to a non-negative floor; the payout is never negative and the trader never
loses more than the deposited margin. -/
theorem perpClosePosition_payout (s : PerpState) (trader pid price : Nat)
    (s2 : PerpState) (pay : Int) (p : PerpPosition)
    (hp : findPos s.positions pid = some p)
    (h : perpClosePosition s trader pid price = Except.ok (s2, pay)) :
    0 ≤ pay ∧
    pay = max ((p.margin : Int) + perpCalcPnl p price
        - perpCalcFundingFee p (perpCurrentFundingIndex s p.symbol)
        - (|perpCalcPnl p price| * (s.trading_fee : Int)).fdiv 10000) 0 ∧
    (p.margin : Int) - pay ≤ (p.margin : Int) := by
  have hL := perpClosePayout_spec p.margin (perpCalcPnl p price)
      (perpCalcFundingFee p (perpCurrentFundingIndex s p.symbol)) s.trading_fee
  simp only [perpClosePosition, hp] at h
  split at h
  · simp only [Except.ok.injEq, Prod.mk.injEq] at h
    obtain ⟨-, h2⟩ := h
    subst h2
    exact ⟨hL.2, hL.1, by have := hL.2; omega⟩
  · cases h

/-- Witness for C3: closing the concrete position `posW` in `stateW` at
price 1000 pays out 100 = the stored margin, satisfying all three bounds. -/
theorem perpClosePosition_payout_witness :
    0 ≤ (100 : Int) ∧
    (100 : Int) = max ((posW.margin : Int) + perpCalcPnl posW 1000
        - perpCalcFundingFee posW (perpCurrentFundingIndex stateW posW.symbol)
        - (|perpCalcPnl posW 1000| * (stateW.trading_fee : Int)).fdiv 10000) 0 ∧
    (posW.margin : Int) - 100 ≤ (posW.margin : Int) :=
  perpClosePosition_payout stateW 1 5 1000 stateE 100 posW rfl rfl

/-- PnL at the entry price is zero. -/
theorem perpCalcPnl_entry (p : PerpPosition) (hc : p.entry_price = c) :
    perpCalcPnl p c = 0 := by
  unfold perpCalcPnl
  rw [← hc]
  simp [Int.zero_fdiv]

/-- The close payout with zero PnL and zero funding fee is exactly the
margin (the closing fee is proportional to `|pnl|`). -/
theorem perpClosePayout_zero (margin tf : Nat) :
    perpClosePayout margin 0 0 tf = (margin : Int) := by
  unfold perpClosePayout
  simp [Int.zero_fdiv]

/-- Claim C4, amended (PerpetualDEX variant): a valid open immediately
followed by a close of the same position at an unchanged oracle price and
unchanged funding state pays back exactly the deposited margin: the PnL term
and the funding-fee term are both zero, and the closing trading fee,
proportional to `|pnl|`, is zero as well. -/
theorem perpOpenClose_margin (s : PerpState) (trader : Nat) (symbol : String)
    (pid margin_amount leverage : Nat) (is_long : Bool) (price ts : Nat)
    (s1 : PerpState) (rid : Nat) (p : PerpPosition)
    (_hprice : 0 < price)
    (hopen : perpOpenPosition s trader symbol pid margin_amount leverage is_long price ts
      = Except.ok (s1, rid))
    (hp : findPos s1.positions rid = some p) :
    perpCalcPnl p price = 0 ∧
    perpCalcFundingFee p (perpCurrentFundingIndex s1 p.symbol) = 0 ∧
    payoutOf (perpClosePosition s1 trader rid price) = Except.ok ((margin_amount : Int)) := by
  simp only [perpOpenPosition] at hopen
  split at hopen
  · simp only [Except.ok.injEq, Prod.mk.injEq] at hopen
    obtain ⟨hs1, hrid⟩ := hopen
    subst hrid
    cases hil : is_long <;>
      simp only [hil, if_true, if_false, Bool.false_eq_true, ite_true, ite_false] at hs1 <;>
      · subst hs1
        simp only [findPos, eq_self_iff_true, if_true, Option.some.injEq] at hp
        subst hp
        refine ⟨perpCalcPnl_entry _ rfl, ?_, ?_⟩
        · simp [perpCalcFundingFee, perpCurrentFundingIndex, Int.zero_fdiv]
        · simp [perpClosePosition, findPos, payoutOf, perpCalcFundingFee,
            perpCurrentFundingIndex, perpClosePayout, perpCalcPnl, Int.zero_fdiv,
            Except.map]
  · cases hopen

/-- Witness for the amended C4: open 100 margin at leverage 10 and price
1000 in the fresh contract, close at the same price; the payout is the
deposited 100. -/
theorem perpOpenClose_margin_witness :
    perpCalcPnl posC 1000 = 0 ∧
    perpCalcFundingFee posC (perpCurrentFundingIndex stateC posC.symbol) = 0 ∧
    payoutOf (perpClosePosition stateC 2 9 1000) = Except.ok ((100 : Nat) : Int) :=
  perpOpenClose_margin perpInitState 2 symBTC 9 100 10 true 1000 0 stateC 9 posC
    (by decide) rfl rfl

/-- Claim C4, counterexample: in the OuroDEX variant the same round trip
does not return the deposited margin.  Depositing 100000000 (100 USDC) at
leverage 10 with the default price 400000000000 and leverage_dividend 1000
stores `margin = price / leverage_dividend = 400000000` and the close at the
unchanged price pays out 400000000 - four times the deposit, so the payout
cannot be the deposit minus any non-negative fees. -/
theorem ouroOpenClose_margin_cex :
    payoutOf ((ouroOpenPosition ouroInitState 1 symETH 42 100000000 10 true 0).bind
        (fun r => ouroClosePosition r.1 1 r.2))
      = Except.ok 400000000 ∧ (100000000 : Nat) < 400000000 :=
  ⟨rfl, by decide⟩

/-- Deleting a key makes its lookup fail. -/
theorem findPos_erase_self {α : Type} (l : List (Nat × α)) (k : Nat) :
    findPos (erasePos l k) k = none := by
  induction l with
  | nil => rfl
  | cons e t ih =>
    simp only [erasePos, List.filter_cons]
    split
    · rename_i h
      simp only [findPos]
      rw [if_neg (by simpa using h)]
      simpa [erasePos] using ih
    · simpa [erasePos] using ih

/-- Deleting an entry cannot increase a per-symbol side sum. -/
theorem sumSide_erase_le (l : List (Nat × PerpPosition)) (k : Nat)
    (sym : String) (side : Bool) :
    sumSide (erasePos l k) sym side ≤ sumSide l sym side := by
  induction l with
  | nil => exact le_refl 0
  | cons e t ih =>
    unfold erasePos at ih ⊢
    simp only [List.filter_cons]
    split
    · simp only [sumSide]
      omega
    · simp only [sumSide]
      omega

/-- Deleting a stored position removes at least its own contribution from
the side sum. -/
theorem findPos_sumSide_le (l : List (Nat × PerpPosition)) (k : Nat)
    (p : PerpPosition) (sym : String) (side : Bool) (hf : findPos l k = some p) :
    (if p.symbol = sym ∧ p.is_long = side then p.size else 0)
      + sumSide (erasePos l k) sym side ≤ sumSide l sym side := by
  induction l with
  | nil => cases hf
  | cons e t ih =>
    simp only [findPos] at hf
    by_cases hk : e.1 = k
    · rw [if_pos hk] at hf
      injection hf with hf
      subst hf
      unfold erasePos
      rw [List.filter_cons_of_neg (by simpa using hk)]
      have h1 := sumSide_erase_le t k sym side
      unfold erasePos at h1
      simp only [sumSide]
      omega
    · rw [if_neg hk] at hf
      have h2 := ih hf
      unfold erasePos at h2 ⊢
      rw [List.filter_cons_of_pos (by simpa using hk)]
      simp only [sumSide]
      omega

/-- Lookup of a different key is unaffected by the overwrite filter. -/
theorem mfind_filter_ne (l : List (String × Int)) (k k2 : String) (h : k2 ≠ k) :
    mfind (l.filter (fun e => e.1 != k)) k2 = mfind l k2 := by
  induction l with
  | nil => rfl
  | cons e t ih =>
    simp only [List.filter_cons]
    split
    · simp only [mfind]
      split
      · rfl
      · exact ih
    · rename_i hfalse
      have he : e.1 = k := by simpa using hfalse
      simp only [mfind]
      rw [if_neg (by rw [he]; exact fun hh => h hh.symm)]
      exact ih

/-- Reading back the stored key returns the stored value. -/
theorem mgetD_mput_self (l : List (String × Int)) (k : String) (v : Int) :
    mgetD (mput l k v) k = v := by
  simp [mgetD, mput, mfind]

/-- Storing under one key leaves other keys unchanged. -/
theorem mgetD_mput_ne (l : List (String × Int)) (k k2 : String) (v : Int)
    (h : k2 ≠ k) :
    mgetD (mput l k v) k2 = mgetD l k2 := by
  simp only [mgetD, mput, mfind]
  rw [if_neg (fun hh => h hh.symm), mfind_filter_ne l k k2 h]

/-- Every contract operation preserves the open-interest invariant: the
per-symbol totals dominate the per-side sums of the stored positions. -/
theorem oiInv_step (s : PerpState) (op : PerpOp) (h : OIInv s) :
    OIInv (perpStep s op) := by
  cases op with
  | openPos trader symbol pid m lev il price ts =>
    simp only [perpStep]
    cases heq : perpOpenPosition s trader symbol pid m lev il price ts with
    | error e => exact h
    | ok r =>
      obtain ⟨s1, rid⟩ := r
      show OIInv s1
      simp only [perpOpenPosition] at heq
      split at heq
      · simp only [Except.ok.injEq, Prod.mk.injEq] at heq
        obtain ⟨hs1, -⟩ := heq
        subst hs1
        intro sym
        have h1t := sumSide_erase_le s.positions pid sym true
        have h1f := sumSide_erase_le s.positions pid sym false
        have h2t := (h sym).1
        have h2f := (h sym).2
        cases il with
        | true =>
          simp only [eq_self_iff_true, if_true, and_true, Bool.true_eq_false,
            and_false, if_false, sumSide]
          constructor
          · by_cases hsym : symbol = sym
            · subst hsym
              rw [mgetD_mput_self, if_pos rfl]
              omega
            · rw [mgetD_mput_ne _ _ _ _ (fun hh => hsym hh.symm), if_neg hsym]
              omega
          · omega
        | false =>
          simp only [Bool.false_eq_true, if_false, eq_self_iff_true, and_true,
            and_false, sumSide]
          constructor
          · omega
          · by_cases hsym : symbol = sym
            · subst hsym
              rw [mgetD_mput_self, if_pos rfl]
              omega
            · rw [mgetD_mput_ne _ _ _ _ (fun hh => hsym hh.symm), if_neg hsym]
              omega
      · cases heq
  | closePos trader pid price =>
    simp only [perpStep]
    cases heq : perpClosePosition s trader pid price with
    | error e => exact h
    | ok r =>
      obtain ⟨s1, pay⟩ := r
      show OIInv s1
      cases hf : findPos s.positions pid with
      | none =>
        simp only [perpClosePosition, hf] at heq
        cases heq
      | some p =>
        simp only [perpClosePosition, hf] at heq
        split at heq
        · simp only [Except.ok.injEq, Prod.mk.injEq] at heq
          obtain ⟨hs1, -⟩ := heq
          subst hs1
          intro sym
          have h1t := sumSide_erase_le s.positions pid sym true
          have h1f := sumSide_erase_le s.positions pid sym false
          have h2t := (h sym).1
          have h2f := (h sym).2
          have hAt := findPos_sumSide_le s.positions pid p sym true hf
          have hAf := findPos_sumSide_le s.positions pid p sym false hf
          cases hil : p.is_long with
          | true =>
            rw [hil] at hAt
            simp only [eq_self_iff_true, if_true]
            constructor
            · by_cases hsym : p.symbol = sym
              · subst hsym
                rw [mgetD_mput_self]
                rw [if_pos ⟨rfl, rfl⟩] at hAt
                omega
              · rw [mgetD_mput_ne _ _ _ _ (fun hh => hsym hh.symm)]
                omega
            · omega
          | false =>
            rw [hil] at hAf
            simp only [Bool.false_eq_true, if_false]
            constructor
            · omega
            · by_cases hsym : p.symbol = sym
              · subst hsym
                rw [mgetD_mput_self]
                rw [if_pos ⟨rfl, rfl⟩] at hAf
                omega
              · rw [mgetD_mput_ne _ _ _ _ (fun hh => hsym hh.symm)]
                omega
        · cases heq
  | liqPos pid price =>
    simp only [perpStep]
    cases heq : perpLiquidatePosition s pid price with
    | error e => exact h
    | ok r =>
      obtain ⟨s1, reward⟩ := r
      show OIInv s1
      cases hf : findPos s.positions pid with
      | none =>
        simp only [perpLiquidatePosition, hf] at heq
        cases heq
      | some p =>
        simp only [perpLiquidatePosition, hf] at heq
        split at heq
        · simp only [Except.ok.injEq, Prod.mk.injEq] at heq
          obtain ⟨hs1, -⟩ := heq
          subst hs1
          intro sym
          have h1t := sumSide_erase_le s.positions pid sym true
          have h1f := sumSide_erase_le s.positions pid sym false
          have h2t := (h sym).1
          have h2f := (h sym).2
          have hAt := findPos_sumSide_le s.positions pid p sym true hf
          have hAf := findPos_sumSide_le s.positions pid p sym false hf
          cases hil : p.is_long with
          | true =>
            rw [hil] at hAt
            simp only [eq_self_iff_true, if_true]
            constructor
            · by_cases hsym : p.symbol = sym
              · subst hsym
                rw [mgetD_mput_self]
                rw [if_pos ⟨rfl, rfl⟩] at hAt
                omega
              · rw [mgetD_mput_ne _ _ _ _ (fun hh => hsym hh.symm)]
                omega
            · omega
          | false =>
            rw [hil] at hAf
            simp only [Bool.false_eq_true, if_false]
            constructor
            · omega
            · by_cases hsym : p.symbol = sym
              · subst hsym
                rw [mgetD_mput_self]
                rw [if_pos ⟨rfl, rfl⟩] at hAf
                omega
              · rw [mgetD_mput_ne _ _ _ _ (fun hh => hsym hh.symm)]
                omega
        · cases heq


/-- The invariant holds along any operation sequence. -/
theorem oiInv_run (ops : List PerpOp) (s : PerpState) (h : OIInv s) :
    OIInv (perpRun s ops) := by
  induction ops generalizing s with
  | nil => exact h
  | cons op t ih =>
    unfold perpRun
    rw [List.foldl_cons]
    exact ih (perpStep s op) (oiInv_step s op h)


/-- Claim C7: starting from the freshly initialized contract, after any
sequence of open / close / liquidate operations (hence at every
intermediate state, since every prefix is such a sequence) the per-symbol
long and short open-interest totals are non-negative: no subtraction ever
takes a total below zero. -/
theorem openInterest_nonneg (ops : List PerpOp) (sym : String) :
    0 ≤ mgetD (perpRun perpInitState ops).total_long_positions sym ∧
    0 ≤ mgetD (perpRun perpInitState ops).total_short_positions sym := by
  have hinit : OIInv perpInitState := by
    intro sym2
    constructor <;> simp [perpInitState, sumSide, mgetD, mfind]
  have h := oiInv_run ops perpInitState hinit sym
  exact ⟨by have := h.1; omega, by have := h.2; omega⟩


/-- Claim C10: after a successful `close_position` or `liquidate_position`
the position record is deleted, so every subsequent `get_position`,
`close_position` or `liquidate_position` with the same id fails with the
`Position not found` error - no closed or liquidated position remains
observable. -/
theorem positionRemoved_terminal (s : PerpState) (pid : Nat) :
    (∀ trader price s2 pay,
      perpClosePosition s trader pid price = Except.ok (s2, pay) →
        findPos s2.positions pid = none ∧
        perpGetPosition s2 pid = Except.error DexError.positionNotFound ∧
        (∀ t2 p2, perpClosePosition s2 t2 pid p2
          = Except.error DexError.positionNotFound) ∧
        (∀ p2, perpLiquidatePosition s2 pid p2
          = Except.error DexError.positionNotFound)) ∧
    (∀ price s2 reward,
      perpLiquidatePosition s pid price = Except.ok (s2, reward) →
        findPos s2.positions pid = none ∧
        perpGetPosition s2 pid = Except.error DexError.positionNotFound ∧
        (∀ t2 p2, perpClosePosition s2 t2 pid p2
          = Except.error DexError.positionNotFound) ∧
        (∀ p2, perpLiquidatePosition s2 pid p2
          = Except.error DexError.positionNotFound)) := by
  constructor
  · intro trader price s2 pay h
    cases hf : findPos s.positions pid with
    | none =>
      simp only [perpClosePosition, hf] at h
      cases h
    | some p =>
      simp only [perpClosePosition, hf] at h
      split at h
      · simp only [Except.ok.injEq, Prod.mk.injEq] at h
        obtain ⟨hs2, -⟩ := h
        have hnone : findPos s2.positions pid = none := by
          rw [← hs2]
          cases p.is_long <;>
            simp only [Bool.false_eq_true, if_false, eq_self_iff_true, if_true] <;>
            exact findPos_erase_self _ _
        refine ⟨hnone, ?_, ?_, ?_⟩
        · simp [perpGetPosition, hnone]
        · intro t2 p2
          simp [perpClosePosition, hnone]
        · intro p2
          simp [perpLiquidatePosition, hnone]
      · cases h
  · intro price s2 reward h
    cases hf : findPos s.positions pid with
    | none =>
      simp only [perpLiquidatePosition, hf] at h
      cases h
    | some p =>
      simp only [perpLiquidatePosition, hf] at h
      split at h
      · simp only [Except.ok.injEq, Prod.mk.injEq] at h
        obtain ⟨hs2, -⟩ := h
        have hnone : findPos s2.positions pid = none := by
          rw [← hs2]
          cases p.is_long <;>
            simp only [Bool.false_eq_true, if_false, eq_self_iff_true, if_true] <;>
            exact findPos_erase_self _ _
        refine ⟨hnone, ?_, ?_, ?_⟩
        · simp [perpGetPosition, hnone]
        · intro t2 p2
          simp [perpClosePosition, hnone]
        · intro p2
          simp [perpLiquidatePosition, hnone]
      · cases h

/-- Witness for C10: closing (resp. liquidating) position 5 of `stateW`
succeeds and leads to `stateE`, where lookup, close and liquidate with id 5
all fail with the not-found error. -/
theorem positionRemoved_terminal_witness :
    (findPos stateE.positions 5 = none ∧
      perpGetPosition stateE 5 = Except.error DexError.positionNotFound ∧
      perpClosePosition stateE 3 5 777 = Except.error DexError.positionNotFound ∧
      perpLiquidatePosition stateE 5 777 = Except.error DexError.positionNotFound) ∧
    (findPos stateE.positions 5 = none ∧
      perpGetPosition stateE 5 = Except.error DexError.positionNotFound ∧
      perpClosePosition stateE 4 5 888 = Except.error DexError.positionNotFound ∧
      perpLiquidatePosition stateE 5 888 = Except.error DexError.positionNotFound) := by
  constructor
  · have h := (positionRemoved_terminal stateW 5).1 1 1000 stateE 100 rfl
    exact ⟨h.1, h.2.1, h.2.2.1 3 777, h.2.2.2 777⟩
  · have h := (positionRemoved_terminal stateW 5).2 900 stateE 5 rfl
    exact ⟨h.1, h.2.1, h.2.2.1 4 888, h.2.2.2 888⟩

/-- Claim C6, amended: swapping the open-interest sides negates the funding
rate whenever the three integer divisions involved are exact - the total
divides `long_oi * 10000`, 50 divides the centred long share, and 100
divides `base_rate * imbalance` - and `max_rate` is non-negative.  (In
general the floor divisions round asymmetrically and exact antisymmetry
fails - see the counterexample.) -/
theorem calculateFundingRate_swap_antisymm (L S : Nat) (base_rate max_rate : Int)
    (hmax : 0 ≤ max_rate)
    (hdvd : ((L : Int) + (S : Int)) ∣ ((L : Int) * 10000))
    (h50 : (50 : Int) ∣ (((L : Int) * 10000).fdiv ((L : Int) + (S : Int)) - 5000))
    (h100 : (100 : Int) ∣ (base_rate *
      ((((L : Int) * 10000).fdiv ((L : Int) + (S : Int)) - 5000).fdiv 50))) :
    calculateFundingRate L S base_rate max_rate
      = - calculateFundingRate S L base_rate max_rate := by
  by_cases h0 : L + S = 0
  · have hL : L = 0 := by omega
    have hS : S = 0 := by omega
    subst hL
    subst hS
    simp [calculateFundingRate]
  · have hT : ((L : Int) + (S : Int)) ≠ 0 := by
      have : 0 < L + S := Nat.pos_of_ne_zero h0
      omega
    obtain ⟨k, hk⟩ := hdvd
    have hlr1 : ((L : Int) * 10000).fdiv ((L : Int) + (S : Int)) = k := by
      rw [hk]
      exact Int.mul_fdiv_cancel_left _ hT
    have hS10 : (S : Int) * 10000 = ((L : Int) + (S : Int)) * (10000 - k) := by
      rw [mul_sub, ← hk]
      ring
    have hlr2 : ((S : Int) * 10000).fdiv ((L : Int) + (S : Int)) = 10000 - k := by
      rw [hS10]
      exact Int.mul_fdiv_cancel_left _ hT
    rw [hlr1] at h50 h100
    obtain ⟨j, hj⟩ := h50
    have himb1 : (k - 5000).fdiv 50 = j := by
      rw [hj]
      exact Int.mul_fdiv_cancel_left _ (by norm_num)
    have himb2 : (10000 - k - 5000).fdiv 50 = -j := by
      have he : 10000 - k - 5000 = 50 * (-j) := by omega
      rw [he]
      exact Int.mul_fdiv_cancel_left _ (by norm_num)
    rw [himb1] at h100
    obtain ⟨q, hq⟩ := h100
    have hr1 : (base_rate * j).fdiv 100 = q := by
      rw [hq]
      exact Int.mul_fdiv_cancel_left _ (by norm_num)
    have hr2 : (base_rate * (-j)).fdiv 100 = -q := by
      have he : base_rate * (-j) = 100 * (-q) := by
        rw [mul_neg, hq, mul_neg]
      rw [he]
      exact Int.mul_fdiv_cancel_left _ (by norm_num)
    unfold calculateFundingRate
    dsimp only
    rw [if_neg h0, if_neg (by omega : ¬ (S + L = 0))]
    simp only [Nat.cast_add]
    rw [hlr1, show ((S : Int) * 10000).fdiv ((S : Int) + (L : Int)) = 10000 - k from
      by rw [add_comm]; exact hlr2]
    rw [himb1, himb2, hr1, hr2]
    split_ifs <;> omega

/-- Witness for the amended C6 at the spec scenario `L = 7000, S = 3000,
base_rate = 10, max_rate = 1000`, where all three divisions are exact. -/
theorem calculateFundingRate_swap_antisymm_witness :
    (0 : Int) ≤ 1000 ∧
    (((7000 : Nat) : Int) + ((3000 : Nat) : Int)) ∣ (((7000 : Nat) : Int) * 10000) ∧
    (50 : Int) ∣ ((((7000 : Nat) : Int) * 10000).fdiv
      (((7000 : Nat) : Int) + ((3000 : Nat) : Int)) - 5000) ∧
    (100 : Int) ∣ ((10 : Int) * (((((7000 : Nat) : Int) * 10000).fdiv
      (((7000 : Nat) : Int) + ((3000 : Nat) : Int)) - 5000).fdiv 50)) ∧
    calculateFundingRate 7000 3000 10 1000 = - calculateFundingRate 3000 7000 10 1000 :=
  ⟨by decide, by decide, by decide, by decide,
    calculateFundingRate_swap_antisymm 7000 3000 10 1000 (by decide) (by decide)
      (by decide) (by decide)⟩

end OuroFi
